import Mathlib

set_option maxRecDepth 100000

/-!
# Verification of the fd-multiplex engine (Go implementation, `go/multiplex.go`)

Shallow embedding of the multiplexer's channel buffers, frame codec,
select/receive logic and accessors.  Bytes are modelled as `Nat` (wire bytes
are `< 256`); Go `int` counters that are provably non-negative in every
reachable state (`offset`, `length`, and `newData`, which the code clamps at
0) are modelled as `Nat`, Nat subtraction coinciding with the code's
floor-at-zero updates.  The byte transport is modelled as the list of bytes
still to be delivered; a blocking read of `n` bytes either yields them or
fails (wall-clock timeouts are outside the model, so `CHANNEL_TIMEOUT` and
`CHANNEL_CLOSED` are collapsed into one failure of `conn_read`).
-/

/-- One channel's receive buffer, from `type ChannelBuffer struct` in
`go/multiplex.go`.  The backing region is `data`; its length plays the role
of the capacity (`len(buf.data)` in the code). -/
structure ChannelBuffer where
  data : List Nat
  offset : Nat
  length : Nat
  initial : Nat
  newData : Nat
deriving DecidableEq

/-- The unread region `buf.data[buf.offset : buf.offset+buf.length]` of a
buffer (total version: truncated at the end of `data`). -/
def unread (buf : ChannelBuffer) : List Nat :=
  (buf.data.drop buf.offset).take buf.length

/-- The doubling loop of `reallocate_channel`:
`for allocateLen < newLen { allocateLen *= 2 }`, run with at most `fuel`
iterations.  -/
def growLenAux : Nat → Nat → Nat → Nat
  | 0, allocateLen, _ => allocateLen
  | fuel + 1, allocateLen, newLen =>
      if allocateLen < newLen then growLenAux fuel (allocateLen * 2) newLen
      else allocateLen

/-- Result of the doubling loop of `reallocate_channel`.  `newLen` iterations
are enough fuel whenever the starting value is at least 1 (then the value at
least doubles each step, and `2 ^ newLen > newLen`); a starting value of 0
never terminates in Go and is unreachable, since activation makes the
capacity and `initial` at least 1. -/
def growLen (allocateLen newLen : Nat) : Nat :=
  growLenAux newLen allocateLen newLen

/-- Case 4 of `reallocate_channel` (also reached from the shrink case 1 with
`allocateLen = buf.initial`): double `allocateLen` until it reaches `newLen`,
allocate a fresh zeroed region of that size, copy the unread bytes to its
front, and reset `offset` to 0. -/
def reallocate_grow (buf : ChannelBuffer) (allocateLen newLen : Nat) : ChannelBuffer :=
  { buf with
    data :=
      (unread buf).take (growLen allocateLen newLen) ++
        List.replicate (growLen allocateLen newLen - ((unread buf).take (growLen allocateLen newLen)).length) 0,
    offset := 0 }

/-- `reallocate_channel` from `go/multiplex.go` (buffer-level body; the
channel-is-nil guard lives in the multiplexer-level wrappers).  Cases, in the
code's order: (1) capacity above four times the required length: shrink,
restarting the doubling from `buf.initial`; (2) capacity already sufficient:
no-op; (3) compaction in place (Go's overlap-safe `copy` of the unread bytes
to the front); (4) grow by doubling. -/
def reallocate_chbuf (buf : ChannelBuffer) (additionalDataSize : Nat) : ChannelBuffer :=
  if buf.data.length > (buf.offset + buf.length + additionalDataSize) * 4 then
    reallocate_grow buf buf.initial (buf.offset + buf.length + additionalDataSize)
  else if buf.data.length ≥ buf.offset + buf.length + additionalDataSize then
    buf
  else if buf.data.length ≥ buf.length + additionalDataSize then
    (if buf.offset > 0 then
      { buf with
        data := unread buf ++ buf.data.drop (unread buf).length,
        offset := 0 }
    else buf)
  else
    reallocate_grow buf buf.data.length (buf.offset + buf.length + additionalDataSize)

/-- `write_channel` from `go/multiplex.go` (buffer-level body): reallocate
for `len(data)` extra bytes, then `copy(buf.data[buf.offset:], data)` —
note the code copies the new bytes starting at `buf.offset`, NOT at
`buf.offset+buf.length` — then `buf.length += length; buf.newData = length`.
The `copy` writes `min(len(buf.data)-buf.offset, len(data))` bytes. -/
def write_chbuf (buf0 : ChannelBuffer) (d : List Nat) : ChannelBuffer :=
  let buf := reallocate_chbuf buf0 d.length
  { buf with
    data :=
      buf.data.take buf.offset ++
        d.take (min (buf.data.length - buf.offset) d.length) ++
        buf.data.drop (buf.offset + min (buf.data.length - buf.offset) d.length),
    length := buf.length + d.length,
    newData := d.length }

/-- `read_channel` from `go/multiplex.go` (buffer-level body): copy
`min(len(dst), buf.length)` bytes out from `offset`, advance `offset`,
shrink `length`, decrement `newData` clamped at 0 (Nat subtraction), and if
the buffer became empty reset `offset` and `newData` as well.  Returns the
copied bytes together with the new buffer. -/
def read_chbuf (buf : ChannelBuffer) (dstLen : Nat) : List Nat × ChannelBuffer :=
  let copyLen := min dstLen buf.length
  let out := (buf.data.drop buf.offset).take copyLen
  let buf1 : ChannelBuffer :=
    { buf with
      offset := buf.offset + copyLen,
      length := buf.length - copyLen,
      newData := buf.newData - copyLen }
  if buf1.length = 0 then (out, { buf1 with offset := 0, newData := 0 })
  else (out, buf1)

/-- `clear_channel` from `go/multiplex.go`: reset `offset`, `length` and
`newData`, keeping the backing allocation. -/
def clear_chbuf (buf : ChannelBuffer) : ChannelBuffer :=
  { buf with offset := 0, length := 0, newData := 0 }

/-- The structural invariant of a channel buffer stated in the spec:
`0 ≤ offset`, `0 ≤ length`, `offset + length ≤ capacity`.  The first two
inequalities are intrinsic to the `Nat` model; the third is the content. -/
def BufInv (buf : ChannelBuffer) : Prop :=
  buf.offset + buf.length ≤ buf.data.length

instance (buf : ChannelBuffer) : Decidable (BufInv buf) := by
  unfold BufInv; infer_instance

/-- The multiplexer, from `type Multiplex struct` in `go/multiplex.go`:
a channel limit (a Go `uint`) and the 256-slot channel table (`channels` is
the slot list; an entry `none` is an inactive channel, `c.channels[i] == nil`
in the code).  The transport connection is passed to the operations as the
list of bytes still to be read from it; the mutex is the reviewer's licence
to model each locked operation as one atomic step. -/
structure Multiplex where
  max_channels : Nat
  channels : List (Option ChannelBuffer)
deriving DecidableEq

/-- `c.channels[channelId]`. -/
def getCh (m : Multiplex) (channelId : Nat) : Option ChannelBuffer :=
  m.channels.getD channelId none

/-- `c.channels[channelId] = some buf`. -/
def setCh (m : Multiplex) (channelId : Nat) (buf : ChannelBuffer) : Multiplex :=
  { m with channels := m.channels.set channelId (some buf) }

/-- A fresh multiplexer with the given channel limit: all 256 slots inactive
(`NewMultiplexEx` body after the limit check). -/
def mkMux (max_channels : Nat) : Multiplex :=
  { max_channels := max_channels, channels := List.replicate 256 none }

/-- `NewMultiplexEx(conn, max_channels)` from `go/multiplex.go`: returns nil
when `max_channels > MAX_CHANNELS` (the `max_channels < 0` half of the guard
is vacuous for a `uint`, so a limit of 0 is permitted). -/
def NewMultiplexEx (max_channels : Nat) : Option Multiplex :=
  if max_channels > 256 then none else some (mkMux max_channels)

/-- `x - 1` in Go `uint` (64-bit) arithmetic, as used in the activation guard
`channelId <= (c.max_channels - 1)`: wraps to `2^64 - 1` when `x = 0`. -/
def uintPred (x : Nat) : Nat :=
  (x + 2 ^ 64 - 1) % 2 ^ 64

/-- `enable_channel(channelId, initialBufferSize)` from `go/multiplex.go`:
no-op unless `channelId <= c.max_channels - 1` (Go `uint` subtraction) and
the slot is inactive; otherwise allocate a zeroed buffer of the given size,
defaulted to `INITIAL_BUFFER_SIZE = 256` when the argument is `<= 0`.
(When the underflowed guard lets an id `≥ 256` through, the Go code panics
on the array index; `List.set` out of range is a no-op instead — the
counterexamples below only use ids `< 256`.) -/
def enable_channel (m : Multiplex) (channelId : Nat) (initialBufferSize : Int) : Multiplex :=
  if channelId ≤ uintPred m.max_channels ∧ getCh m channelId = none then
    setCh m channelId
      { data := List.replicate (if initialBufferSize ≤ 0 then 256 else initialBufferSize.toNat) 0,
        offset := 0,
        length := 0,
        initial := (if initialBufferSize ≤ 0 then 256 else initialBufferSize.toNat),
        newData := 0 }
  else m

/-- The error values of `go/multiplex.go`, plus a marker for the runtime
panic of `make([]byte, dataLength-1)` on a negative size (the code has no
guard for it).  Wall-clock timeouts are not modelled, so a short transport
stream is reported as `closed` (covering both `CHANNEL_TIMEOUT` and
`CHANNEL_CLOSED` of `conn_read`). -/
inductive MuxError where
  | ignored
  | closed
  | panicNegMake
deriving DecidableEq

instance {ε α : Type} [DecidableEq ε] [DecidableEq α] : DecidableEq (Except ε α)
  | .ok a, .ok b => if h : a = b then .isTrue (by rw [h]) else .isFalse (by simp [h])
  | .ok _, .error _ => .isFalse (by simp)
  | .error _, .ok _ => .isFalse (by simp)
  | .error a, .error b => if h : a = b then .isTrue (by rw [h]) else .isFalse (by simp [h])

/-- `conn_read(conn, timeout, buffer)` from `go/multiplex.go`, on the
transport modelled as the list of bytes still to arrive: a blocking read of
exactly `n` bytes, failing (timeout or close) when the stream is shorter.
Returns the bytes read and the rest of the stream. -/
def conn_read (wire : List Nat) (n : Nat) : Option (List Nat × List Nat) :=
  if n ≤ wire.length then some (wire.take n, wire.drop n) else none

/-- The readiness test of the `select_channel` scan:
`buf != nil && buf.length > 0 && buf.newData != 0`. -/
def chReady : Option ChannelBuffer → Bool
  | none => false
  | some buf => decide (0 < buf.length) && decide (buf.newData ≠ 0)

/-- Clearing the new-data marker (`buf.newData = 0`) of one channel, as done
by `select_channel` when it reports that channel. -/
def clearNew (m : Multiplex) (channelId : Nat) : Multiplex :=
  match getCh m channelId with
  | none => m
  | some buf => setCh m channelId { buf with newData := 0 }

/-- The scan loop of `select_channel`:
`for i := 0; i < int(c.max_channels); i++ { if ready { newData = 0; return i } }`,
unrolled with explicit fuel (`m.max_channels` iterations suffice from
`i = 0`). -/
def scanFrom (m : Multiplex) : Nat → Nat → Option Nat
  | 0, _ => none
  | fuel + 1, i =>
      if i < m.max_channels then
        (if chReady (getCh m i) then some i else scanFrom m fuel (i + 1))
      else none

/-- The full buffered-data scan of `select_channel`, over ids
`0 .. max_channels - 1` in ascending order. -/
def scanChannels (m : Multiplex) : Option Nat :=
  scanFrom m m.max_channels 0

/-- `write_channel` from `go/multiplex.go` at the multiplexer level:
`reallocate_channel` returns false only for an inactive channel, in which
case nothing happens. -/
def write_channel (m : Multiplex) (channelId : Nat) (d : List Nat) : Multiplex :=
  match getCh m channelId with
  | none => m
  | some buf => setCh m channelId (write_chbuf buf d)

/-- The header-length word decoded by `select_channel` (line 389):
`int(b0)<<24 | int(b1)<<16 | int(b2)<<8 | int(b3)`.  The four shifted bytes
occupy disjoint bit ranges, so Go's `|` coincides with `+`. -/
def headerLengthField (hdr : List Nat) : Nat :=
  hdr.getD 0 0 * 2 ^ 24 + hdr.getD 1 0 * 2 ^ 16 + hdr.getD 2 0 * 2 ^ 8 + hdr.getD 3 0

/-- The size `dataLength - 1` that `select_channel` passes to
`make([]byte, dataLength-1)`, computed in Go `int` arithmetic (so it is `-1`
when the header's length field is 0; the code has no guard before the
allocation). -/
def select_allocSize (hdr : List Nat) : Int :=
  (headerLengthField hdr : Int) - 1

/-- The wire-reading tail of `select_channel` (lines 370-409): read the
5-byte header, decode `dataLength` and `channelId`, allocate and fill the
payload (`.panicNegMake` marks the unguarded `make([]byte, -1)` runtime
panic when the length field is 0), then route the payload: to an active
channel via `write_channel`, or discard it with `CHANNEL_IGNORED`. -/
def select_wire (m : Multiplex) (wire : List Nat) :
    Except MuxError Nat × Multiplex × List Nat :=
  match conn_read wire 5 with
  | none => (.error .closed, m, wire)
  | some (hdr, rest) =>
      if headerLengthField hdr = 0 then (.error .panicNegMake, m, rest)
      else
        match conn_read rest (headerLengthField hdr - 1) with
        | none => (.error .closed, m, rest)
        | some (payload, rest2) =>
            match getCh m (hdr.getD 4 0) with
            | none => (.error .ignored, m, rest2)
            | some _ => (.ok (hdr.getD 4 0), write_channel m (hdr.getD 4 0) payload, rest2)

/-- The part of `select_channel` after the single-channel fast check: the
ascending scan over buffered channels, then the wire read. -/
def select_rest (m : Multiplex) (wire : List Nat) :
    Except MuxError Nat × Multiplex × List Nat :=
  match scanChannels m with
  | some i => (.ok i, clearNew m i, wire)
  | none => select_wire m wire

/-- `select_channel(timeout, channelId)` from `go/multiplex.go`: first the
fast check of the single channel `channelId` (skipped when
`channelId ≥ max_channels`, as in `Select`'s call with
`channelId = max_channels`), then the ascending scan, then the wire read. -/
def select_channel (m : Multiplex) (wire : List Nat) (channelId : Nat) :
    Except MuxError Nat × Multiplex × List Nat :=
  if channelId < m.max_channels ∧ chReady (getCh m channelId) = true then
    (.ok channelId, clearNew m channelId, wire)
  else select_rest m wire

/-- `Select(timeout)` from `go/multiplex.go`:
`c.select_channel(timeout, c.max_channels)` under the lock. -/
def Select (m : Multiplex) (wire : List Nat) :
    Except MuxError Nat × Multiplex × List Nat :=
  select_channel m wire m.max_channels

/-- `read_channel` at the multiplexer level (nil channel gives
`CHANNEL_IGNORED`). -/
def read_channel (m : Multiplex) (channelId : Nat) (dstLen : Nat) :
    Except MuxError (List Nat) × Multiplex :=
  match getCh m channelId with
  | none => (.error .ignored, m)
  | some buf => (.ok (read_chbuf buf dstLen).1, setCh m channelId (read_chbuf buf dstLen).2)

/-- `receive_channel(timeout, channelId, dst)` from `go/multiplex.go`:
inactive channel gives `CHANNEL_IGNORED`; a buffer holding at least one
unread byte is consumed immediately (copy `min(len(dst), buf.length)` bytes,
advance `offset`, shrink `length` — note this fast path touches neither
`newData` nor the transport); otherwise one `select_channel` round, with
`CHANNEL_IGNORED` when the delivered channel differs, else `read_channel`. -/
def receive_channel (m : Multiplex) (wire : List Nat) (channelId : Nat) (dstLen : Nat) :
    Except MuxError (List Nat) × Multiplex × List Nat :=
  match getCh m channelId with
  | none => (.error .ignored, m, wire)
  | some buf =>
      if 0 < buf.length then
        (.ok ((buf.data.drop buf.offset).take (min dstLen buf.length)),
         setCh m channelId
           { buf with
             offset := buf.offset + min dstLen buf.length,
             length := buf.length - min dstLen buf.length },
         wire)
      else
        match select_channel m wire channelId with
        | (.error e, m1, wire1) => (.error e, m1, wire1)
        | (.ok receiveId, m1, wire1) =>
            if receiveId ≠ channelId then (.error .ignored, m1, wire1)
            else
              match read_channel m1 channelId dstLen with
              | (r, m2) => (r, m2, wire1)

/-- `Receive(timeout, channelId, data)` from `go/multiplex.go`: the
`for` loop that re-invokes `receive_channel` as long as it yields
`CHANNEL_IGNORED`, with explicit fuel; `none` means the loop is still
spinning after `fuel` iterations. -/
def Receive (fuel : Nat) (m : Multiplex) (wire : List Nat) (channelId : Nat) (dstLen : Nat) :
    Option (Except MuxError (List Nat) × Multiplex × List Nat) :=
  match fuel with
  | 0 => none
  | fuel + 1 =>
      match receive_channel m wire channelId dstLen with
      | (.error .ignored, m1, wire1) => Receive fuel m1 wire1 channelId dstLen
      | out => some out

/-- The frame encoding of `Send(channelId, src)` (lines 491-501): a 4-byte
big-endian length field holding `len(src) + 1`, the channel-id byte
`channelId & 0xFF`, then the payload.  Go's `(length >> k) & 0xFF` is
`length / 2^k % 256` on `Nat`. -/
def encodeFrame (channelId : Nat) (src : List Nat) : List Nat :=
  (src.length + 1) / 2 ^ 24 % 256 ::
    (src.length + 1) / 2 ^ 16 % 256 ::
      (src.length + 1) / 2 ^ 8 % 256 ::
        (src.length + 1) % 256 ::
          channelId % 256 :: src

/-- The frame decoding performed by `select_channel`'s wire path
(lines 371-403), as a pure codec: read the 5-byte header, reject a zero
length field (the negative `make` size), read `dataLength - 1` payload
bytes, and return the channel id byte with the payload. -/
def decodeFrame (s : List Nat) : Option (Nat × List Nat) :=
  match conn_read s 5 with
  | none => none
  | some (hdr, rest) =>
      if headerLengthField hdr = 0 then none
      else
        match conn_read rest (headerLengthField hdr - 1) with
        | none => none
        | some (payload, _) => some (hdr.getD 4 0, payload)

/-- `Length(channelId)` from `go/multiplex.go`: `-1` for an inactive channel
(the failed `lock_channel`), else the unread byte count. -/
def Length (m : Multiplex) (channelId : Nat) : Int :=
  match getCh m channelId with
  | none => -1
  | some buf => buf.length

/-- `LastReceived(channelId)` from `go/multiplex.go`: `-1` for an inactive
channel, else `newData`. -/
def LastReceived (m : Multiplex) (channelId : Nat) : Int :=
  match getCh m channelId with
  | none => -1
  | some buf => buf.newData

/-- `Get(channelId)` from `go/multiplex.go`: `buf.data[buf.offset:]` with no
nil guard — `none` models the nil-pointer dereference (panic) on an
inactive channel. -/
def Get (m : Multiplex) (channelId : Nat) : Option (List Nat) :=
  (getCh m channelId).map fun buf => buf.data.drop buf.offset

/-- `Dup(channelId)` from `go/multiplex.go`: an owned copy of
`buf.data[buf.offset : buf.offset+buf.length]` with no nil guard — `none`
models the nil-pointer dereference (panic) on an inactive channel. -/
def Dup (m : Multiplex) (channelId : Nat) : Option (List Nat) :=
  (getCh m channelId).map fun buf => (buf.data.drop buf.offset).take buf.length

/-! Concrete fixtures used by counterexamples and witnesses. -/

/-- A buffer holding the two unread bytes `[1, 2]` at the front of a
4-byte region. -/
def bufC1 : ChannelBuffer :=
  { data := [1, 2, 0, 0], offset := 0, length := 2, initial := 4, newData := 2 }

/-- A 20-byte buffer holding two unread bytes at offset 1: utilization is
below 25 percent, so the shrink branch of `reallocate_chbuf` fires. -/
def bufC4 : ChannelBuffer :=
  { data := List.replicate 20 7, offset := 1, length := 2, initial := 4, newData := 0 }

/-- A well-utilized 4-byte buffer (no shrink, no growth needed). -/
def bufC4w : ChannelBuffer :=
  { data := [7, 7, 7, 7], offset := 0, length := 2, initial := 4, newData := 0 }

/-- A buffer with two unread, newly arrived bytes. -/
def bufC8 : ChannelBuffer :=
  { data := [9, 8, 0, 0], offset := 0, length := 2, initial := 4, newData := 2 }

/-- A small ready buffer (one unread, newly arrived byte). -/
def bufReady : ChannelBuffer :=
  { data := [7, 0], offset := 0, length := 1, initial := 2, newData := 1 }

/-- A buffer for the invariant witness. -/
def bufC9 : ChannelBuffer :=
  { data := [3, 4, 5, 6], offset := 1, length := 2, initial := 4, newData := 2 }

/-- A multiplexer whose channel 5 is active with an empty buffer. -/
def muxC2 : Multiplex :=
  setCh (mkMux 256) 5 { data := List.replicate 4 0, offset := 0, length := 0, initial := 4, newData := 0 }

/-- A multiplexer whose channels 3 and 7 are both ready. -/
def muxC6 : Multiplex :=
  setCh (setCh (mkMux 16) 3 bufReady) 7 bufReady

/-- A multiplexer whose channel 2 holds the buffered bytes of `bufC8`. -/
def muxC8 : Multiplex :=
  setCh (mkMux 16) 2 bufC8

/-! ## Helper lemmas -/

theorem growLenAux_ge_start : ∀ fuel a t, 1 ≤ a → a ≤ growLenAux fuel a t := by
  intro fuel
  induction fuel with
  | zero => intro a t _; simp [growLenAux]
  | succ n ih =>
      intro a t h
      rw [growLenAux]
      split
      · calc a ≤ a * 2 := by omega
          _ ≤ growLenAux n (a * 2) t := ih (a * 2) t (by omega)
      · exact le_rfl

theorem growLenAux_ge_target : ∀ fuel a t, 1 ≤ a → t ≤ 2 ^ fuel * a → t ≤ growLenAux fuel a t := by
  intro fuel
  induction fuel with
  | zero => intro a t _ hle; simpa [growLenAux] using hle
  | succ n ih =>
      intro a t h hle
      rw [growLenAux]
      split
      · apply ih (a * 2) t (by omega)
        have : 2 ^ (n + 1) * a = 2 ^ n * (a * 2) := by ring
        omega
      · next hlt => omega

theorem growLen_ge_start (a t : Nat) (h : 1 ≤ a) : a ≤ growLen a t :=
  growLenAux_ge_start t a t h

theorem growLen_ge_target (a t : Nat) (h : 1 ≤ a) : t ≤ growLen a t := by
  apply growLenAux_ge_target t a t h
  have h1 : t < 2 ^ t := Nat.lt_two_pow t
  have h2 : 2 ^ t ≤ 2 ^ t * a := Nat.le_mul_of_pos_right _ (by omega)
  omega

theorem reallocate_grow_fields (buf : ChannelBuffer) (a t : Nat) :
    (reallocate_grow buf a t).offset = 0 ∧
    (reallocate_grow buf a t).length = buf.length ∧
    (reallocate_grow buf a t).initial = buf.initial ∧
    (reallocate_grow buf a t).data.length = growLen a t := by
  refine ⟨rfl, rfl, rfl, ?_⟩
  simp only [reallocate_grow, List.length_append, List.length_take, List.length_replicate]
  omega

/-- Postcondition of `reallocate_chbuf` on reachable buffers: the invariant
holds afterwards, the new capacity accommodates `offset + length + n` more
bytes, and `length`, `initial` and positivity of the capacity are
preserved. -/
theorem reallocate_post (buf : ChannelBuffer) (n : Nat)
    (hInv : BufInv buf) (hInit : 1 ≤ buf.initial) (hCap : 1 ≤ buf.data.length) :
    BufInv (reallocate_chbuf buf n) ∧
    (reallocate_chbuf buf n).offset + (reallocate_chbuf buf n).length + n ≤
      (reallocate_chbuf buf n).data.length ∧
    (reallocate_chbuf buf n).length = buf.length ∧
    (reallocate_chbuf buf n).initial = buf.initial ∧
    1 ≤ (reallocate_chbuf buf n).data.length := by
  unfold BufInv at hInv ⊢
  unfold reallocate_chbuf
  split
  · -- shrink, restarting the doubling from buf.initial
    obtain ⟨ho, hl, hi2, hd⟩ := reallocate_grow_fields buf buf.initial (buf.offset + buf.length + n)
    have h1 := growLen_ge_target buf.initial (buf.offset + buf.length + n) hInit
    have h2 := growLen_ge_start buf.initial (buf.offset + buf.length + n) hInit
    refine ⟨?_, ?_, hl, hi2, ?_⟩ <;> simp only [ho, hl, hd] <;> omega
  · split
    · -- capacity already sufficient: no-op
      next hbig => exact ⟨hInv, hbig, rfl, rfl, by omega⟩
    · split
      · -- compaction in place
        next hle hcomp =>
          split
          · -- offset > 0: slide the unread bytes to the front
            refine ⟨?_, ?_, rfl, rfl, ?_⟩ <;>
              (simp [unread]; omega)
          · -- offset = 0: nothing to do
            next hoff => exact ⟨hInv, by omega, rfl, rfl, by omega⟩
      · -- grow by doubling from the current capacity
        next h1 h2 h3 =>
          obtain ⟨ho, hl, hi2, hd⟩ := reallocate_grow_fields buf buf.data.length (buf.offset + buf.length + n)
          have g1 := growLen_ge_target buf.data.length (buf.offset + buf.length + n) hCap
          have g2 := growLen_ge_start buf.data.length (buf.offset + buf.length + n) hCap
          refine ⟨?_, ?_, hl, hi2, ?_⟩ <;> simp only [ho, hl, hd] <;> omega

theorem getCh_setCh_ne (m : Multiplex) (i j : Nat) (buf : ChannelBuffer) (h : i ≠ j) :
    getCh (setCh m i buf) j = getCh m j := by
  simp only [getCh, setCh, List.getD_eq_getElem?_getD, List.getElem?_set_ne h]

theorem getCh_mkMux (limit i : Nat) : getCh (mkMux limit) i = none := by
  simp only [getCh, mkMux, List.getD_eq_getElem?_getD, List.getElem?_replicate]
  split <;> rfl

theorem max_channels_enable (m : Multiplex) (channelId : Nat) (sz : Int) :
    (enable_channel m channelId sz).max_channels = m.max_channels := by
  unfold enable_channel
  split <;> rfl

theorem uintPred_of_pos (x : Nat) (h1 : 1 ≤ x) (h2 : x ≤ 256) : uintPred x = x - 1 := by
  unfold uintPred
  omega

/-- Correctness of the scan loop of `select_channel`: with enough fuel it
returns the least ready channel id below the limit. -/
theorem scanFrom_eq_some (m : Multiplex) (i : Nat)
    (hi : i < m.max_channels) (hr : chReady (getCh m i) = true) :
    ∀ fuel k, k ≤ i → i < k + fuel →
      (∀ j, k ≤ j → j < i → chReady (getCh m j) = false) →
      scanFrom m fuel k = some i := by
  intro fuel
  induction fuel with
  | zero => intro k h1 h2 _; omega
  | succ n ih =>
      intro k h1 h2 hmin
      rw [scanFrom]
      rw [if_pos (by omega)]
      by_cases hki : k = i
      · subst hki
        rw [hr]
        rfl
      · rw [hmin k le_rfl (by omega)]
        exact ih (k + 1) (by omega) (by omega) (fun j hj1 hj2 => hmin j (by omega) hj2)

/-! ## Claims -/

/-- C1 (code bug evaluation).  The claim says Append places the new bytes
after the current unread region, so appending `[3,4]` to a buffer whose
unread region is `[1,2]` should leave the unread bytes `[1,2,3,4]` (as the C
reference `multiplex_write` does with its `memcpy` to `offset+length`).  The
Go `write_channel` instead copies at `buf.data[buf.offset:]`, overwriting
the unread bytes: the buffer afterwards reads `[3,4,0,0]`, losing the FIFO
order. -/
theorem write_channel_places_data_at_offset :
    unread (write_chbuf bufC1 [3, 4]) = [3, 4, 0, 0] ∧
    unread (write_chbuf bufC1 [3, 4]) ≠ [1, 2, 3, 4] := by
  decide

/-- C2 (code bug evaluation).  On a received header whose 32-bit length
field is 0, `select_channel` derives `dataLength - 1 = -1` and passes it
straight to `make([]byte, dataLength-1)` with no guard: a negative-size
allocation (runtime panic), not a rejection equivalent to Channel Closed.
`select_allocSize` is the size the code computes; `.panicNegMake` marks the
unguarded allocation in the decode path. -/
theorem select_negative_alloc_on_zero_length_header :
    select_allocSize [0, 0, 0, 0, 5] = -1 ∧
    select_allocSize [0, 0, 0, 0, 5] < 0 ∧
    Select muxC2 [0, 0, 0, 0, 5] = (.error .panicNegMake, muxC2, []) := by
  refine ⟨by decide, by decide, by decide⟩

/-- C3 (code bug evaluation).  The claim says `Receive` on an inactive
channel returns `CHANNEL_IGNORED` to its immediate caller.  In the Go code
`receive_channel` does return `CHANNEL_IGNORED` (first conjunct), but the
public `Receive` wraps it in `for { ... if err != CHANNEL_IGNORED { return } }`,
so on an inactive channel it re-invokes `receive_channel` forever and never
returns (second conjunct: the loop is still spinning after any amount of
fuel). -/
theorem receive_inactive_channel_never_returns (m : Multiplex) (wire : List Nat)
    (channelId dstLen : Nat) (h : getCh m channelId = none) :
    receive_channel m wire channelId dstLen = (.error .ignored, m, wire) ∧
    ∀ fuel, Receive fuel m wire channelId dstLen = none := by
  have hstep : receive_channel m wire channelId dstLen = (.error .ignored, m, wire) := by
    unfold receive_channel
    rw [h]
  refine ⟨hstep, ?_⟩
  intro fuel
  induction fuel with
  | zero => rfl
  | succ n ih =>
      rw [Receive, hstep]
      exact ih

theorem receive_inactive_channel_never_returns_witness :
    getCh (mkMux 256) 9 = none ∧ Receive 5 (mkMux 256) [] 9 4 = none :=
  ⟨by decide, (receive_inactive_channel_never_returns (mkMux 256) [] 9 4 (by decide)).2 5⟩

/-- C4 (counterexample).  `bufC4` has capacity 20 and needs
`offset+length+1 = 4` bytes, so by the claim `reallocate_channel` should be
a no-op; but the shrink test `allocateLen > newLen*4` is checked BEFORE the
capacity-sufficient test, so the code replaces the backing allocation (and
resets `offset`) anyway. -/
theorem reallocate_shrinks_despite_sufficient_capacity :
    bufC4.offset + bufC4.length + 1 ≤ bufC4.data.length ∧
    reallocate_chbuf bufC4 1 ≠ bufC4 := by
  decide

/-- C4 (amended).  Ensure-capacity is a no-op exactly when the capacity is
at least `offset+length+additional` AND at most four times that required
length; the shrink branch is tested first, so a capacity above `4×required`
reallocates even though the first condition holds. -/
theorem reallocate_noop_when_capacity_within_bounds (buf : ChannelBuffer) (additional : Nat)
    (h1 : buf.offset + buf.length + additional ≤ buf.data.length)
    (h2 : buf.data.length ≤ (buf.offset + buf.length + additional) * 4) :
    reallocate_chbuf buf additional = buf := by
  unfold reallocate_chbuf
  rw [if_neg (by omega), if_pos (by omega)]

theorem reallocate_noop_when_capacity_within_bounds_witness :
    bufC4w.offset + bufC4w.length + 1 ≤ bufC4w.data.length ∧
    bufC4w.data.length ≤ (bufC4w.offset + bufC4w.length + 1) * 4 ∧
    reallocate_chbuf bufC4w 1 = bufC4w :=
  ⟨by decide, by decide,
    reallocate_noop_when_capacity_within_bounds bufC4w 1 (by decide) (by decide)⟩

/-- C8 (counterexample).  `muxC8`'s channel 2 holds 2 unread bytes with
`newData = 2`.  By the claim, Receive's buffered fast path has full Consume
semantics, so consuming 2 bytes should decrement the unread marker to
`2 - 2 = 0` (as `read_chbuf` does, second conjunct); but the fast path of
`receive_channel` leaves `newData` untouched at 2. -/
theorem receive_buffered_keeps_unread_marker :
    LastReceived (receive_channel muxC8 [] 2 2).2.1 2 = 2 ∧
    LastReceived (receive_channel muxC8 [] 2 2).2.1 2 ≠ ((bufC8.newData - 2 : Nat) : Int) ∧
    (read_chbuf bufC8 2).2.newData = 0 := by
  refine ⟨by decide, by decide, by decide⟩

/-- C8 (amended).  When the addressed channel's buffer holds at least one
unread byte, `receive_channel` immediately returns the first
`min(len(dst), length)` unread bytes without touching the transport,
advancing `offset` and shrinking `length` by that amount — but it leaves
`unreadMarker` (`newData`) unchanged, unlike the full Consume
(`read_channel`) semantics. -/
theorem receive_buffered_fast_path (m : Multiplex) (wire : List Nat)
    (channelId dstLen : Nat) (buf : ChannelBuffer)
    (hb : getCh m channelId = some buf) (hlen : 0 < buf.length) :
    receive_channel m wire channelId dstLen =
      (.ok ((buf.data.drop buf.offset).take (min dstLen buf.length)),
       setCh m channelId
         { buf with
           offset := buf.offset + min dstLen buf.length,
           length := buf.length - min dstLen buf.length },
       wire) := by
  simp only [receive_channel, hb]
  rw [if_pos hlen]

theorem receive_buffered_fast_path_witness :
    getCh muxC8 2 = some bufC8 ∧ 0 < bufC8.length ∧
    receive_channel muxC8 [] 2 1 =
      (.ok [9],
       setCh muxC8 2 { bufC8 with offset := 1, length := 1 },
       []) := by
  refine ⟨by decide, by decide, ?_⟩
  rw [receive_buffered_fast_path muxC8 [] 2 1 bufC8 (by decide) (by decide)]
  decide

/-- C10 (confirmed).  On an inactive channel id, `Get` and `Dup` reach the
unguarded nil dereference (modelled by `none`), while `Length` and
`LastReceived` on the same id return `-1` instead of failing. -/
theorem inactive_channel_accessors (m : Multiplex) (channelId : Nat)
    (h : getCh m channelId = none) :
    Get m channelId = none ∧ Dup m channelId = none ∧
    Length m channelId = -1 ∧ LastReceived m channelId = -1 := by
  simp [Get, Dup, Length, LastReceived, h]

theorem inactive_channel_accessors_witness :
    getCh (mkMux 256) 7 = none ∧
    (Get (mkMux 256) 7 = none ∧ Dup (mkMux 256) 7 = none ∧
     Length (mkMux 256) 7 = -1 ∧ LastReceived (mkMux 256) 7 = -1) :=
  ⟨by decide, inactive_channel_accessors (mkMux 256) 7 (by decide)⟩

/-- C6 (confirmed).  When some active channel below the limit has
`length > 0` and `newData ≠ 0`, `Select` returns the smallest such channel
id, clears that channel's new-data marker, and leaves the transport
untouched. -/
theorem select_returns_smallest_ready_channel (m : Multiplex) (wire : List Nat) (i : Nat)
    (hi : i < m.max_channels) (hr : chReady (getCh m i) = true)
    (hmin : ∀ j, j < i → chReady (getCh m j) = false) :
    Select m wire = (.ok i, clearNew m i, wire) := by
  unfold Select select_channel
  rw [if_neg (fun h => Nat.lt_irrefl _ h.1)]
  unfold select_rest scanChannels
  rw [scanFrom_eq_some m i hi hr m.max_channels 0 (Nat.zero_le i) (by omega)
    (fun j _ hj => hmin j hj)]

theorem select_returns_smallest_ready_channel_witness :
    3 < muxC6.max_channels ∧ chReady (getCh muxC6 3) = true ∧
    (∀ j, j < 3 → chReady (getCh muxC6 j) = false) ∧
    Select muxC6 [] = (.ok 3, clearNew muxC6 3, []) :=
  ⟨by decide, by decide, by decide,
    select_returns_smallest_ready_channel muxC6 [] 3 (by decide) (by decide) (by decide)⟩

/-- C7 (counterexample).  `NewMultiplexEx` permits the channel limit 0, and
with `max_channels = 0` the activation guard
`channelId <= c.max_channels - 1` underflows in `uint` arithmetic, so
`enable_channel` activates channel 3 even though `3 ≥ channelLimit = 0`,
refuting the claim for channelLimit 0. -/
theorem enable_channel_limit_zero_activates :
    NewMultiplexEx 0 = some (mkMux 0) ∧
    getCh (enable_channel (mkMux 0) 3 0) 3 ≠ none := by
  decide

/-- C7 (amended).  For every channel limit from 1 through 256 (limit 0 is
excluded by the `uint` underflow above), no sequence of Activate calls can
activate a channel id at or above the limit. -/
theorem enable_channel_respects_positive_limit (limit : Nat)
    (h1 : 1 ≤ limit) (h2 : limit ≤ 256)
    (ops : List (Nat × Int)) (i : Nat) (hi : limit ≤ i) :
    getCh (ops.foldl (fun m p => enable_channel m p.1 p.2) (mkMux limit)) i = none := by
  have key : ∀ (l : List (Nat × Int)) (m : Multiplex),
      m.max_channels = limit → getCh m i = none →
      getCh (l.foldl (fun m p => enable_channel m p.1 p.2) m) i = none := by
    intro l
    induction l with
    | nil => intro m _ h; simpa using h
    | cons p rest ih =>
        intro m hmax hnone
        simp only [List.foldl_cons]
        apply ih
        · rw [max_channels_enable, hmax]
        · unfold enable_channel
          split
          · next hcond =>
              have hpi : p.1 ≠ i := by
                have hb := hcond.1
                rw [hmax, uintPred_of_pos limit h1 h2] at hb
                omega
              rw [getCh_setCh_ne m p.1 i _ hpi]
              exact hnone
          · exact hnone
  exact key ops (mkMux limit) rfl (getCh_mkMux limit i)

theorem enable_channel_respects_positive_limit_witness :
    1 ≤ 1 ∧ (1 : Nat) ≤ 256 ∧ (1 : Nat) ≤ 3 ∧
    getCh ([((1 : Nat), (0 : Int)), (3, 5)].foldl
      (fun m p => enable_channel m p.1 p.2) (mkMux 1)) 3 = none :=
  ⟨by decide, by decide, by decide,
    enable_channel_respects_positive_limit 1 (by decide) (by decide) [(1, 0), (3, 5)] 3 (by decide)⟩

/-- C5 (confirmed).  Encoding a frame for `(channelId, payload)` — 4-byte
big-endian length field holding `len(payload) + 1`, the channel-id byte,
then the payload — and decoding it with `select_channel`'s decode logic
yields back exactly the same `(channelId, payload)`, for every
`channelId < 256` and every payload whose length fits the 32-bit field. -/
theorem frame_roundtrip (channelId : Nat) (src : List Nat)
    (h1 : channelId < 256) (h2 : src.length + 1 < 2 ^ 32) :
    decodeFrame (encodeFrame channelId src) = some (channelId, src) := by
  have hfield : headerLengthField ((src.length + 1) / 2 ^ 24 % 256 ::
      (src.length + 1) / 2 ^ 16 % 256 :: (src.length + 1) / 2 ^ 8 % 256 ::
      (src.length + 1) % 256 :: channelId % 256 :: []) = src.length + 1 := by
    simp only [headerLengthField, List.getD_cons_zero, List.getD_cons_succ]
    omega
  unfold decodeFrame conn_read encodeFrame
  simp only [List.length_cons]
  rw [if_pos (by omega)]
  simp only [List.take_succ_cons, List.take_zero, List.drop_succ_cons, List.drop_zero]
  rw [hfield]
  rw [if_neg (by omega)]
  simp only [Nat.add_sub_cancel]
  rw [if_pos (le_refl src.length)]
  simp only [List.take_length]
  rw [Nat.mod_eq_of_lt h1]
  rfl

theorem frame_roundtrip_witness :
    (5 : Nat) < 256 ∧ [1, 2, 3].length + 1 < 2 ^ 32 ∧
    decodeFrame (encodeFrame 5 [1, 2, 3]) = some (5, [1, 2, 3]) :=
  ⟨by decide, by decide, frame_roundtrip 5 [1, 2, 3] (by decide) (by decide)⟩

/-- C9 (confirmed).  Each channel-buffer operation — Ensure-capacity
(`reallocate_chbuf`), Append (`write_chbuf`), Consume (`read_chbuf`) and
Clear (`clear_chbuf`) — preserves the structural invariant
`offset + length ≤ capacity` (nonnegativity being intrinsic to the `Nat`
model) on every reachable buffer state; reachability supplies
`1 ≤ initial` and `1 ≤ capacity`, both established at activation and
preserved by every operation. -/
theorem buffer_ops_preserve_invariant (buf : ChannelBuffer) (n dstLen : Nat) (d : List Nat)
    (hInv : BufInv buf) (hInit : 1 ≤ buf.initial) (hCap : 1 ≤ buf.data.length) :
    BufInv (reallocate_chbuf buf n) ∧ BufInv (write_chbuf buf d) ∧
    BufInv ((read_chbuf buf dstLen).2) ∧ BufInv (clear_chbuf buf) := by
  refine ⟨(reallocate_post buf n hInv hInit hCap).1, ?_, ?_, ?_⟩
  · obtain ⟨hI, hpost, hlen, hinit2, hpos⟩ := reallocate_post buf d.length hInv hInit hCap
    unfold BufInv at hI ⊢
    simp only [write_chbuf, List.length_append, List.length_take, List.length_drop]
    omega
  · unfold BufInv at hInv ⊢
    simp only [read_chbuf]
    split <;> simp <;> omega
  · unfold BufInv
    simp [clear_chbuf]

theorem buffer_ops_preserve_invariant_witness :
    BufInv bufC9 ∧ 1 ≤ bufC9.initial ∧ 1 ≤ bufC9.data.length ∧
    (BufInv (reallocate_chbuf bufC9 3) ∧ BufInv (write_chbuf bufC9 [1, 2]) ∧
     BufInv ((read_chbuf bufC9 1).2) ∧ BufInv (clear_chbuf bufC9)) :=
  ⟨by decide, by decide, by decide,
    buffer_ops_preserve_invariant bufC9 3 1 [1, 2] (by decide) (by decide) (by decide)⟩
